import Mathlib

/-!
Shallow embedding of `src/cache.rs` from the sequential-storage repository:
the page-state Oracle (the default `StateQuery::get_page_state`), the
`NoCache`, `DirtyCache` and `PageStateCache` strategies, together with
theorems settling the specification claims about them.

Modelling conventions:
- Flash bytes are `Nat` values taken modulo 256 where bit patterns matter.
- A device is a pure map from addresses to byte values, plus a predicate
  saying which read operations fail; the device error payload carried by
  `Error::Storage { value }` is abstracted away (no claim inspects it).
- Every operation that reads the device also returns the list of read
  operations it performed, so that read counts are statable.
- A Rust panic (out-of-bounds slot indexing) is modelled as `Option.none`.
-/

namespace SeqStorage

/-- Modelled from the spec: the crate-root `PageState` enum is not under
`src/`; the spec lists the three states `Open`, `PartialOpen`, `Closed`. -/
inductive PageState where
  | Open : PageState
  | PartialOpen : PageState
  | Closed : PageState
deriving DecidableEq, Repr

/-- Modelled from the spec: the crate-root `Error` enum is not under `src/`;
the module uses its `Storage` (wrapped device failure, payload abstracted)
and `Corrupted` variants. -/
inductive FlashError where
  | Storage : FlashError
  | Corrupted : FlashError
deriving DecidableEq, Repr

/-- A NOR-flash device as seen by the cache module: its two published
constants (`READ_SIZE`, `ERASE_SIZE`), its byte contents, and which read
operations fail. -/
structure Flash where
  readSize : Nat
  eraseSize : Nat
  mem : Nat → Nat
  readFails : Nat → Bool

/-- One device read operation: start address and length, recorded so that
read counts can be stated. -/
structure ReadOp where
  addr : Nat
  len : Nat
deriving DecidableEq, Repr

/-- Rust `u8::count_zeros`: the number of zero bits among the 8 bits of the
byte (the byte is truncated to 8 bits explicitly). -/
def count_zeros (b : Nat) : Nat :=
  ((List.range 8).filter (fun k => !((b % 256).testBit k))).length

/-- The `HALF_MARKER_BITS` constant from `get_page_state`. -/
def HALF_MARKER_BITS : Nat := 4

/-- The zero-bit count of one marker read: `buffer[..READ_SIZE].iter()
.map(|marker_byte| marker_byte.count_zeros()).sum()`. -/
def markerZeroBits (f : Flash) (addr : Nat) : Nat :=
  ((List.range f.readSize).map (fun i => count_zeros (f.mem (addr + i)))).sum

/-- The marker-set test of `get_page_state`: the summed zero-bit count is at
least `HALF_MARKER_BITS`. -/
def markerSet (f : Flash) (addr : Nat) : Bool :=
  decide (HALF_MARKER_BITS ≤ markerZeroBits f addr)

/-- Modelled from the spec: `calculate_page_address` lives at the crate root,
not under `src/`; the spec defines it as range start + index × erase-unit
size. -/
def calculate_page_address (rangeStart : Nat) (eraseSize : Nat) (pageIndex : Nat) : Nat :=
  rangeStart + pageIndex * eraseSize

/-- The default `StateQuery::get_page_state` (the page-state Oracle): two
marker reads, each checked against the zero-bit threshold, then the decision
table over (start marked, end marked). Returns the outcome together with the
list of device reads performed. -/
def stateQuery_get_page_state (f : Flash) (rangeStart : Nat) (pageIndex : Nat) :
    Except FlashError PageState × List ReadOp :=
  let pageAddress := calculate_page_address rangeStart f.eraseSize pageIndex
  let read1 : ReadOp := ⟨pageAddress, f.readSize⟩
  if f.readFails pageAddress then
    (Except.error FlashError.Storage, [read1])
  else
    let startMarked := markerSet f pageAddress
    let endAddress := pageAddress + (f.eraseSize - f.readSize)
    let read2 : ReadOp := ⟨endAddress, f.readSize⟩
    if f.readFails endAddress then
      (Except.error FlashError.Storage, [read1, read2])
    else
      let endMarked := markerSet f endAddress
      let result : Except FlashError PageState :=
        match startMarked, endMarked with
        | true, true => Except.ok PageState.Closed
        | true, false => Except.ok PageState.PartialOpen
        | false, true => Except.error FlashError.Corrupted
        | false, false => Except.ok PageState.Open
      (result, [read1, read2])

/-- The `NoCache` strategy: a unit struct with no memory. -/
structure NoCache where
deriving DecidableEq, Repr

def NoCache.invalidate_cache_state (c : NoCache) : NoCache := c

def NoCache.mark_dirty (c : NoCache) : NoCache := c

def NoCache.unmark_dirty (c : NoCache) : NoCache := c

def NoCache.is_dirty (_ : NoCache) : Bool := false

def NoCache.notice_page_state (c : NoCache) (_ : Nat) (_ : PageState) : NoCache := c

/-- `NoCache` keeps the trait's default `get_page_state`: it delegates to the
Oracle and leaves its (empty) state unchanged. -/
def NoCache.get_page_state (c : NoCache) (f : Flash) (rangeStart : Nat) (pageIndex : Nat) :
    Except FlashError PageState × NoCache × List ReadOp :=
  let r := stateQuery_get_page_state f rangeStart pageIndex
  (r.1, c, r.2)

/-- The `DirtyCache` helper: a single advisory boolean. -/
structure DirtyCache where
  dirty : Bool
deriving DecidableEq, Repr

def DirtyCache.invalidate_cache_state (_ : DirtyCache) : DirtyCache := ⟨false⟩

def DirtyCache.mark_dirty (_ : DirtyCache) : DirtyCache := ⟨true⟩

def DirtyCache.unmark_dirty (_ : DirtyCache) : DirtyCache := ⟨false⟩

def DirtyCache.is_dirty (c : DirtyCache) : Bool := c.dirty

/-- `PageStateCache<PAGE_COUNT>`: a dirty flag plus one optional state slot
per page. The Rust const generic `PAGE_COUNT` is the length of `pages`. -/
structure PageStateCache where
  dirty_cache : DirtyCache
  pages : List (Option PageState)
deriving DecidableEq, Repr

/-- `PageStateCache::new()`: all slots absent, dirty flag clear. -/
def PageStateCache.new (pageCount : Nat) : PageStateCache :=
  ⟨⟨false⟩, List.replicate pageCount none⟩

def PageStateCache.invalidate_cache_state (c : PageStateCache) : PageStateCache :=
  ⟨c.dirty_cache.invalidate_cache_state, List.replicate c.pages.length none⟩

def PageStateCache.mark_dirty (c : PageStateCache) : PageStateCache :=
  ⟨c.dirty_cache.mark_dirty, c.pages⟩

def PageStateCache.unmark_dirty (c : PageStateCache) : PageStateCache :=
  ⟨c.dirty_cache.unmark_dirty, c.pages⟩

def PageStateCache.is_dirty (c : PageStateCache) : Bool :=
  c.dirty_cache.is_dirty

/-- `PageStateCache::notice_page_state`: mark dirty, then overwrite the slot.
The slot indexing has no bounds check; an out-of-bounds index panics, which
the embedding models as `none`. -/
def PageStateCache.notice_page_state (c : PageStateCache) (pageIndex : Nat)
    (newState : PageState) : Option PageStateCache :=
  if pageIndex < c.pages.length then
    some ⟨c.dirty_cache.mark_dirty, c.pages.set pageIndex (some newState)⟩
  else
    none

/-- `PageStateCache::get_page_state`: on a present slot return it with no
device access; on an absent slot delegate to the Oracle and memoize a
successful result. Out-of-bounds indexing panics (`none`). -/
def PageStateCache.get_page_state (c : PageStateCache) (f : Flash) (rangeStart : Nat)
    (pageIndex : Nat) :
    Option (Except FlashError PageState × PageStateCache × List ReadOp) :=
  match c.pages.get? pageIndex with
  | none => none
  | some (some state) => some (Except.ok state, c, [])
  | some none =>
    match stateQuery_get_page_state f rangeStart pageIndex with
    | (Except.ok state, reads) =>
      some (Except.ok state, ⟨c.dirty_cache, c.pages.set pageIndex (some state)⟩, reads)
    | (Except.error e, reads) =>
      some (Except.error e, c, reads)

/-- Address of a page's start marker read. -/
def pageAddr (f : Flash) (rangeStart pageIndex : Nat) : Nat :=
  calculate_page_address rangeStart f.eraseSize pageIndex

/-- Address of a page's end marker read: `page_address + (ERASE_SIZE - READ_SIZE)`. -/
def endAddr (f : Flash) (rangeStart pageIndex : Nat) : Nat :=
  pageAddr f rangeStart pageIndex + (f.eraseSize - f.readSize)

/-- All bits of one marker read, flattened: for each of the `READ_SIZE` bytes,
its 8 bits. Used to state the zero-bit threshold the way the spec phrases it
(a total over all bits of the read). -/
def markerBits (f : Flash) (addr : Nat) : List Bool :=
  ((List.range f.readSize).map (fun i =>
    (List.range 8).map (fun k => (f.mem (addr + i) % 256).testBit k))).flatten

theorem count_false_testBits (b : Nat) :
    ((List.range 8).map (fun k => (b % 256).testBit k)).count false = count_zeros b := by
  simp only [List.count_eq_countP, List.countP_map, List.countP_eq_length_filter]
  rw [List.filter_map, List.length_map]
  unfold count_zeros
  congr 1
  apply List.filter_congr
  intro x _
  simp [Function.comp]

theorem markerZeroBits_eq_count_false (f : Flash) (addr : Nat) :
    (markerBits f addr).count false = markerZeroBits f addr := by
  unfold markerBits markerZeroBits
  rw [List.count_flatten, List.map_map]
  congr 1
  apply List.map_congr_left
  intro i _
  exact count_false_testBits (f.mem (addr + i))

theorem get_page_state_hit (c : PageStateCache) (f : Flash) (rangeStart pageIndex : Nat)
    (s : PageState) (h : c.pages.get? pageIndex = some (some s)) :
    c.get_page_state f rangeStart pageIndex = some (Except.ok s, c, []) := by
  unfold PageStateCache.get_page_state
  rw [h]

theorem get_page_state_miss_ok (c : PageStateCache) (f : Flash) (rangeStart pageIndex : Nat)
    (s : PageState) (reads : List ReadOp) (h : c.pages.get? pageIndex = some none)
    (ho : stateQuery_get_page_state f rangeStart pageIndex = (Except.ok s, reads)) :
    c.get_page_state f rangeStart pageIndex =
      some (Except.ok s, ⟨c.dirty_cache, c.pages.set pageIndex (some s)⟩, reads) := by
  unfold PageStateCache.get_page_state
  rw [h, ho]

theorem get_page_state_miss_error (c : PageStateCache) (f : Flash) (rangeStart pageIndex : Nat)
    (e : FlashError) (reads : List ReadOp) (h : c.pages.get? pageIndex = some none)
    (ho : stateQuery_get_page_state f rangeStart pageIndex = (Except.error e, reads)) :
    c.get_page_state f rangeStart pageIndex = some (Except.error e, c, reads) := by
  unfold PageStateCache.get_page_state
  rw [h, ho]

theorem get_page_state_oob (c : PageStateCache) (f : Flash) (rangeStart pageIndex : Nat)
    (h : c.pages.get? pageIndex = none) :
    c.get_page_state f rangeStart pageIndex = none := by
  unfold PageStateCache.get_page_state
  rw [h]

/-- C1: for every page whose two marker reads succeed, the Oracle decides the
result solely by the pair (start marked, end marked): (true, true) gives
`Closed`, (true, false) gives `PartialOpen`, (false, false) gives `Open`, and
(false, true) fails with the corruption error and never returns a
`PageState`. -/
theorem oracle_decision_table (f : Flash) (rangeStart pageIndex : Nat)
    (h1 : f.readFails (pageAddr f rangeStart pageIndex) = false)
    (h2 : f.readFails (endAddr f rangeStart pageIndex) = false) :
    ((stateQuery_get_page_state f rangeStart pageIndex).1 =
      match markerSet f (pageAddr f rangeStart pageIndex),
          markerSet f (endAddr f rangeStart pageIndex) with
      | true, true => Except.ok PageState.Closed
      | true, false => Except.ok PageState.PartialOpen
      | false, true => Except.error FlashError.Corrupted
      | false, false => Except.ok PageState.Open) ∧
    (markerSet f (pageAddr f rangeStart pageIndex) = false →
      markerSet f (endAddr f rangeStart pageIndex) = true →
      ∀ s : PageState,
        (stateQuery_get_page_state f rangeStart pageIndex).1 ≠ Except.ok s) := by
  unfold stateQuery_get_page_state
  unfold endAddr at h2
  unfold pageAddr at h1 h2
  simp only [h1, Bool.false_eq_true, if_false, h2]
  constructor
  · rfl
  · intro hs he s
    unfold endAddr at he
    unfold pageAddr at hs he
    rw [hs, he]
    simp

/-- Witness for C1 at a concrete device: one-byte reads, all bytes zero, so
both markers are set and the Oracle returns `Closed`. -/
theorem oracle_decision_table_witness :
    (stateQuery_get_page_state ⟨1, 2, fun _ => 0, fun _ => false⟩ 0 0).1 =
      Except.ok PageState.Closed := by
  have h := oracle_decision_table ⟨1, 2, fun _ => 0, fun _ => false⟩ 0 0 rfl rfl
  rw [h.1]
  rfl

/-- C2: a marker is considered set if and only if the total count of zero
bits, summed over all bits of all bytes of that read, is at least four —
the threshold is the constant `HALF_MARKER_BITS = 4`, independent of the
device's read size. -/
theorem markerSet_iff_four_zero_bits (f : Flash) (addr : Nat) :
    markerSet f addr = true ↔ 4 ≤ (markerBits f addr).count false := by
  rw [markerZeroBits_eq_count_false]
  unfold markerSet HALF_MARKER_BITS
  simp

/-- Witness for C2 on an all-zeros device with one-byte reads: the marker
read has eight zero bits, so the marker counts as set. -/
theorem markerSet_iff_four_zero_bits_witness :
    markerSet ⟨1, 2, fun _ => 0, fun _ => false⟩ 0 = true :=
  (markerSet_iff_four_zero_bits ⟨1, 2, fun _ => 0, fun _ => false⟩ 0).mpr (by decide)

/-- C3: on a memoizing cache, a present slot is returned with zero device
reads and no state change; an absent slot is filled from the Oracle and the
successful result returned; hence a second `get_page_state` right after a
successful one performs zero device reads and returns the same value. -/
theorem pageStateCache_memoizes (c : PageStateCache) (f : Flash) (rangeStart pageIndex : Nat) :
    (∀ s, c.pages.get? pageIndex = some (some s) →
      c.get_page_state f rangeStart pageIndex = some (Except.ok s, c, [])) ∧
    (∀ s reads, c.pages.get? pageIndex = some none →
      stateQuery_get_page_state f rangeStart pageIndex = (Except.ok s, reads) →
      c.get_page_state f rangeStart pageIndex =
        some (Except.ok s, ⟨c.dirty_cache, c.pages.set pageIndex (some s)⟩, reads)) ∧
    (∀ s c2 reads, c.get_page_state f rangeStart pageIndex = some (Except.ok s, c2, reads) →
      c2.get_page_state f rangeStart pageIndex = some (Except.ok s, c2, [])) := by
  refine ⟨fun s h => get_page_state_hit c f rangeStart pageIndex s h,
    fun s reads h ho => get_page_state_miss_ok c f rangeStart pageIndex s reads h ho, ?_⟩
  intro s c2 reads h
  cases hg : c.pages.get? pageIndex with
  | none =>
    rw [get_page_state_oob c f rangeStart pageIndex hg] at h
    exact absurd h (by simp)
  | some slot =>
    cases slot with
    | some t =>
      rw [get_page_state_hit c f rangeStart pageIndex t hg] at h
      obtain ⟨h1, h2, h3⟩ := by simpa using h
      rw [← h2]
      rw [h1] at hg
      exact get_page_state_hit c f rangeStart pageIndex s hg
    | none =>
      obtain ⟨⟨r, tr⟩, ho⟩ : ∃ p, stateQuery_get_page_state f rangeStart pageIndex = p :=
        ⟨_, rfl⟩
      cases r with
      | ok t =>
        rw [get_page_state_miss_ok c f rangeStart pageIndex t tr hg ho] at h
        obtain ⟨h1, h2, h3⟩ := by simpa using h
        obtain ⟨hlt, -⟩ := List.get?_eq_some.mp hg
        rw [← h2]
        refine get_page_state_hit _ f rangeStart pageIndex s ?_
        show (c.pages.set pageIndex (some t)).get? pageIndex = some (some s)
        rw [h1]
        exact List.get?_set_eq_of_lt (some s) hlt
      | error e =>
        rw [get_page_state_miss_error c f rangeStart pageIndex e tr hg ho] at h
        exact absurd h (by simp)

/-- Witness for C3 at a one-page cache whose slot holds `Open`: the lookup
hits the slot, with zero device reads. -/
theorem pageStateCache_memoizes_witness :
    PageStateCache.get_page_state ⟨⟨false⟩, [some PageState.Open]⟩
        ⟨1, 2, fun _ => 0, fun _ => false⟩ 0 0 =
      some (Except.ok PageState.Open, ⟨⟨false⟩, [some PageState.Open]⟩, []) :=
  (pageStateCache_memoizes ⟨⟨false⟩, [some PageState.Open]⟩
    ⟨1, 2, fun _ => 0, fun _ => false⟩ 0 0).1 PageState.Open rfl

/-- C4: for an in-bounds index, `notice_page_state` marks the cache dirty and
overwrites the slot without any device access, so an immediately following
`get_page_state` returns the asserted state with zero device reads and
`is_dirty` returns true. -/
theorem notice_page_state_asserts (c : PageStateCache) (pageIndex : Nat) (s : PageState)
    (h : pageIndex < c.pages.length) :
    PageStateCache.notice_page_state c pageIndex s =
      some ⟨⟨true⟩, c.pages.set pageIndex (some s)⟩ ∧
    ∀ c2, PageStateCache.notice_page_state c pageIndex s = some c2 →
      c2.is_dirty = true ∧
      ∀ f rangeStart, c2.get_page_state f rangeStart pageIndex = some (Except.ok s, c2, []) := by
  have hn : PageStateCache.notice_page_state c pageIndex s =
      some ⟨⟨true⟩, c.pages.set pageIndex (some s)⟩ := by
    unfold PageStateCache.notice_page_state
    rw [if_pos h]
    rfl
  refine ⟨hn, ?_⟩
  intro c2 h2
  rw [hn] at h2
  obtain rfl : (⟨⟨true⟩, c.pages.set pageIndex (some s)⟩ : PageStateCache) = c2 :=
    Option.some.inj h2
  refine ⟨rfl, ?_⟩
  intro f rangeStart
  refine get_page_state_hit _ f rangeStart pageIndex s ?_
  show (c.pages.set pageIndex (some s)).get? pageIndex = some (some s)
  exact List.get?_set_eq_of_lt (some s) h

/-- Witness for C4 on a fresh one-page cache: asserting `Closed` for page 0
yields a dirty cache whose slot 0 holds `Closed`. -/
theorem notice_page_state_asserts_witness :
    PageStateCache.notice_page_state (PageStateCache.new 1) 0 PageState.Closed =
      some ⟨⟨true⟩, [some PageState.Closed]⟩ :=
  (notice_page_state_asserts (PageStateCache.new 1) 0 PageState.Closed (by decide)).1

theorem stateQuery_trace_fail (f : Flash) (rangeStart pageIndex : Nat)
    (hf : f.readFails (pageAddr f rangeStart pageIndex) = true) :
    (stateQuery_get_page_state f rangeStart pageIndex).2 =
      [⟨pageAddr f rangeStart pageIndex, f.readSize⟩] := by
  unfold pageAddr at hf ⊢
  unfold stateQuery_get_page_state
  simp only [hf, if_true]

theorem stateQuery_trace_ok (f : Flash) (rangeStart pageIndex : Nat)
    (hf : f.readFails (pageAddr f rangeStart pageIndex) = false) :
    (stateQuery_get_page_state f rangeStart pageIndex).2 =
      [⟨pageAddr f rangeStart pageIndex, f.readSize⟩,
       ⟨endAddr f rangeStart pageIndex, f.readSize⟩] := by
  unfold endAddr
  unfold pageAddr at hf ⊢
  unfold stateQuery_get_page_state
  simp only [hf, Bool.false_eq_true, if_false]
  cases hf2 : f.readFails
      (calculate_page_address rangeStart f.eraseSize pageIndex + (f.eraseSize - f.readSize)) with
  | false => simp only [hf2, Bool.false_eq_true, if_false]
  | true => simp only [hf2, if_true]

theorem stateQuery_trace_length (f : Flash) (rangeStart pageIndex : Nat) :
    (stateQuery_get_page_state f rangeStart pageIndex).2.length ≤ 2 ∧
    (f.readFails (pageAddr f rangeStart pageIndex) = false →
      (stateQuery_get_page_state f rangeStart pageIndex).2.length = 2) := by
  cases hf : f.readFails (pageAddr f rangeStart pageIndex) with
  | true =>
    rw [stateQuery_trace_fail f rangeStart pageIndex hf]
    exact ⟨by simp, fun hc => absurd hc (by simp)⟩
  | false =>
    rw [stateQuery_trace_ok f rangeStart pageIndex hf]
    exact ⟨by simp, fun _ => by simp⟩

/-- Counterexample to C5 as stated: after invalidating a one-page cache that
held `Closed`, a lookup against a device whose reads fail performs one device
read, not two. -/
theorem invalidate_two_reads_cex :
    (PageStateCache.invalidate_cache_state ⟨⟨true⟩, [some PageState.Closed]⟩).get_page_state
        ⟨1, 2, fun _ => 0, fun _ => true⟩ 0 0 =
      some (Except.error FlashError.Storage, ⟨⟨false⟩, [none]⟩, [⟨0, 1⟩]) ∧
    [(⟨0, 1⟩ : ReadOp)].length ≠ 2 := by
  exact ⟨rfl, by decide⟩

/-- C5 (amended): `invalidate_cache_state` resets every slot to absent and
clears the dirty flag without touching the device, so a following
`get_page_state` on an in-bounds index always consults the Oracle,
performing exactly the Oracle's device reads regardless of prior cache
content: at most two, and exactly two whenever the first marker read
succeeds. -/
theorem invalidate_then_get_oracle (c : PageStateCache) (f : Flash) (rangeStart pageIndex : Nat)
    (h : pageIndex < c.pages.length) :
    PageStateCache.invalidate_cache_state c =
      ⟨⟨false⟩, List.replicate c.pages.length none⟩ ∧
    ∀ res c2 reads,
      (PageStateCache.invalidate_cache_state c).get_page_state f rangeStart pageIndex =
        some (res, c2, reads) →
      reads = (stateQuery_get_page_state f rangeStart pageIndex).2 ∧
      reads.length ≤ 2 ∧
      (f.readFails (pageAddr f rangeStart pageIndex) = false → reads.length = 2) := by
  have hslot : (PageStateCache.invalidate_cache_state c).pages.get? pageIndex = some none := by
    show (List.replicate c.pages.length (none : Option PageState)).get? pageIndex = some none
    rw [List.get?_eq_getElem?]
    simp [List.getElem?_replicate, h]
  refine ⟨rfl, ?_⟩
  intro res c2 reads hg
  have hre : reads = (stateQuery_get_page_state f rangeStart pageIndex).2 := by
    obtain ⟨⟨r, tr⟩, ho⟩ : ∃ p, stateQuery_get_page_state f rangeStart pageIndex = p :=
      ⟨_, rfl⟩
    cases r with
    | ok s =>
      rw [get_page_state_miss_ok _ f rangeStart pageIndex s tr hslot ho] at hg
      obtain ⟨-, -, h3⟩ := by simpa using hg
      rw [ho]
      exact h3.symm
    | error e =>
      rw [get_page_state_miss_error _ f rangeStart pageIndex e tr hslot ho] at hg
      obtain ⟨-, -, h3⟩ := by simpa using hg
      rw [ho]
      exact h3.symm
  obtain ⟨hle, hex⟩ := stateQuery_trace_length f rangeStart pageIndex
  refine ⟨hre, ?_, fun hf => ?_⟩
  · rw [hre]
    exact hle
  · rw [hre]
    exact hex hf

/-- Witness for the amended C5 on a one-page cache and an all-zeros device:
invalidation yields the fresh cache. -/
theorem invalidate_then_get_oracle_witness :
    PageStateCache.invalidate_cache_state ⟨⟨true⟩, [some PageState.Closed]⟩ =
      ⟨⟨false⟩, [none]⟩ :=
  (invalidate_then_get_oracle ⟨⟨true⟩, [some PageState.Closed]⟩
    ⟨1, 2, fun _ => 0, fun _ => false⟩ 0 0 (by decide)).1

/-- Counterexample to C6 as stated: when the first marker read fails, the
Oracle performs one device read, not two. -/
theorem oracle_two_reads_cex :
    (stateQuery_get_page_state ⟨1, 2, fun _ => 0, fun _ => true⟩ 0 0).2 = [⟨0, 1⟩] ∧
    [(⟨0, 1⟩ : ReadOp)].length ≠ 2 := by
  exact ⟨rfl, by decide⟩

/-- C6 (amended): whenever its first marker read succeeds, the Oracle
performs exactly two device reads — one of `READ_SIZE` bytes at the page's
start address and one of `READ_SIZE` bytes starting at
`address + ERASE_SIZE − READ_SIZE` — it never performs more than two reads,
and it has no side effects on cache state. -/
theorem oracle_exactly_two_reads (f : Flash) (rangeStart pageIndex : Nat) :
    (stateQuery_get_page_state f rangeStart pageIndex).2.length ≤ 2 ∧
    (∀ c : NoCache, (NoCache.get_page_state c f rangeStart pageIndex).2.1 = c) ∧
    (f.readFails (pageAddr f rangeStart pageIndex) = false →
      (stateQuery_get_page_state f rangeStart pageIndex).2 =
        [⟨pageAddr f rangeStart pageIndex, f.readSize⟩,
         ⟨endAddr f rangeStart pageIndex, f.readSize⟩]) :=
  ⟨(stateQuery_trace_length f rangeStart pageIndex).1, fun _ => rfl,
   fun h => stateQuery_trace_ok f rangeStart pageIndex h⟩

/-- Witness for the amended C6: on a device with one-byte reads and two-byte
pages, the Oracle reads addresses 0 and 1 of page 0. -/
theorem oracle_exactly_two_reads_witness :
    (stateQuery_get_page_state ⟨1, 2, fun _ => 0, fun _ => false⟩ 0 0).2 = [⟨0, 1⟩, ⟨1, 1⟩] := by
  rw [(oracle_exactly_two_reads ⟨1, 2, fun _ => 0, fun _ => false⟩ 0 0).2.2 rfl]
  rfl

/-- C7: on a cache miss, a failing Oracle call (storage or corruption error)
propagates the error and leaves the cache unchanged: the slot stays absent
and the dirty flag keeps its prior value, so the next lookup retries from
scratch. -/
theorem failed_oracle_leaves_cache (c : PageStateCache) (f : Flash) (rangeStart pageIndex : Nat)
    (e : FlashError) (reads : List ReadOp)
    (h : c.pages.get? pageIndex = some none)
    (ho : stateQuery_get_page_state f rangeStart pageIndex = (Except.error e, reads)) :
    c.get_page_state f rangeStart pageIndex = some (Except.error e, c, reads) ∧
    ∀ res c2 tr, c.get_page_state f rangeStart pageIndex = some (res, c2, tr) →
      c2.pages.get? pageIndex = some none ∧ c2.is_dirty = c.is_dirty := by
  have he := get_page_state_miss_error c f rangeStart pageIndex e reads h ho
  refine ⟨he, ?_⟩
  intro res c2 tr h2
  rw [he] at h2
  obtain ⟨-, h2c, -⟩ := by simpa using h2
  rw [← h2c]
  exact ⟨h, rfl⟩

/-- Witness for C7: a fresh one-page cache against a device whose reads all
fail propagates the storage error and stays fresh. -/
theorem failed_oracle_leaves_cache_witness :
    PageStateCache.get_page_state (PageStateCache.new 1) ⟨1, 2, fun _ => 0, fun _ => true⟩ 0 0 =
      some (Except.error FlashError.Storage, PageStateCache.new 1, [⟨0, 1⟩]) :=
  (failed_oracle_leaves_cache (PageStateCache.new 1) ⟨1, 2, fun _ => 0, fun _ => true⟩ 0 0
    FlashError.Storage [⟨0, 1⟩] rfl rfl).1

/-- C8: `NoCache` has no memory: `is_dirty` is always false; invalidate,
mark, unmark and notice leave the (empty) state unchanged; and
`get_page_state` returns exactly the Oracle's outcome and performs the
Oracle's device reads on every call (a nonempty read trace). -/
theorem noCache_no_memory :
    (∀ c : NoCache, c.is_dirty = false) ∧
    (∀ c : NoCache, c.invalidate_cache_state = c ∧ c.mark_dirty = c ∧ c.unmark_dirty = c) ∧
    (∀ (c : NoCache) (pageIndex : Nat) (s : PageState), c.notice_page_state pageIndex s = c) ∧
    (∀ (c : NoCache) (f : Flash) (rangeStart pageIndex : Nat),
      NoCache.get_page_state c f rangeStart pageIndex =
        ((stateQuery_get_page_state f rangeStart pageIndex).1, c,
         (stateQuery_get_page_state f rangeStart pageIndex).2) ∧
      (NoCache.get_page_state c f rangeStart pageIndex).2.2 ≠ []) := by
  refine ⟨fun c => rfl, fun c => ⟨rfl, rfl, rfl⟩, fun c i s => rfl, fun c f r i => ⟨rfl, ?_⟩⟩
  show (stateQuery_get_page_state f r i).2 ≠ []
  cases hf : f.readFails (pageAddr f r i) with
  | true =>
    rw [stateQuery_trace_fail f r i hf]
    simp
  | false =>
    rw [stateQuery_trace_ok f r i hf]
    simp

/-- Witness for C8: `NoCache` delegates a concrete lookup to the Oracle,
returning `Closed` for a page whose bytes are all zero. -/
theorem noCache_no_memory_witness :
    NoCache.get_page_state ⟨⟩ ⟨1, 2, fun _ => 0, fun _ => false⟩ 0 0 =
      (Except.ok PageState.Closed, ⟨⟩, [⟨0, 1⟩, ⟨1, 1⟩]) := by
  rw [(noCache_no_memory.2.2.2 ⟨⟩ ⟨1, 2, fun _ => 0, fun _ => false⟩ 0 0).1]
  rfl

/-- C9: frame property of the memoizing lookup: it never changes the dirty
flag and never modifies a slot other than the queried one; a hit changes no
cache state at all, and on a miss whose result is a success the queried slot
goes from absent to holding that result. -/
theorem get_page_state_frame (c : PageStateCache) (f : Flash) (rangeStart pageIndex : Nat)
    (res : Except FlashError PageState) (c2 : PageStateCache) (reads : List ReadOp)
    (h : c.get_page_state f rangeStart pageIndex = some (res, c2, reads)) :
    c2.dirty_cache = c.dirty_cache ∧
    (∀ j, j ≠ pageIndex → c2.pages.get? j = c.pages.get? j) ∧
    (∀ s, c.pages.get? pageIndex = some (some s) → c2 = c) ∧
    (c.pages.get? pageIndex = some none → ∀ s, res = Except.ok s →
      c2.pages.get? pageIndex = some (some s)) := by
  cases hg : c.pages.get? pageIndex with
  | none =>
    rw [get_page_state_oob c f rangeStart pageIndex hg] at h
    exact absurd h (by simp)
  | some slot =>
    cases slot with
    | some t =>
      rw [get_page_state_hit c f rangeStart pageIndex t hg] at h
      obtain ⟨h1, h2, h3⟩ := by simpa using h
      rw [← h2]
      exact ⟨rfl, fun j _ => rfl, fun s _ => rfl, fun habs => absurd habs (by simp)⟩
    | none =>
      obtain ⟨⟨r, tr⟩, ho⟩ : ∃ p, stateQuery_get_page_state f rangeStart pageIndex = p :=
        ⟨_, rfl⟩
      cases r with
      | ok t =>
        rw [get_page_state_miss_ok c f rangeStart pageIndex t tr hg ho] at h
        obtain ⟨h1, h2, h3⟩ := by simpa using h
        obtain ⟨hlt, -⟩ := List.get?_eq_some.mp hg
        rw [← h2]
        refine ⟨rfl, fun j hj => ?_, fun s hs => absurd hs (by simp), fun _ s hres => ?_⟩
        · show (c.pages.set pageIndex (some t)).get? j = c.pages.get? j
          exact List.get?_set_ne (some t) c.pages (Ne.symm hj)
        · rw [← h1] at hres
          obtain rfl : t = s := by simpa using hres
          show (c.pages.set pageIndex (some t)).get? pageIndex = some (some t)
          exact List.get?_set_eq_of_lt (some t) hlt
      | error e =>
        rw [get_page_state_miss_error c f rangeStart pageIndex e tr hg ho] at h
        obtain ⟨h1, h2, h3⟩ := by simpa using h
        rw [← h2]
        refine ⟨rfl, fun j _ => rfl, fun s hs => absurd hs (by simp), fun _ s hres => ?_⟩
        rw [← h1] at hres
        exact absurd hres (by simp)

/-- Witness for C9 on a two-page cache: a successful miss on page 0 leaves
slot 1 exactly as it was. -/
theorem get_page_state_frame_witness :
    (⟨⟨false⟩, [some PageState.Closed, none]⟩ : PageStateCache).pages.get? 1 =
      (PageStateCache.new 2).pages.get? 1 :=
  (get_page_state_frame (PageStateCache.new 2) ⟨1, 2, fun _ => 0, fun _ => false⟩ 0 0
    (Except.ok PageState.Closed) ⟨⟨false⟩, [some PageState.Closed, none]⟩ [⟨0, 1⟩, ⟨1, 1⟩]
    rfl).2.1 1 (by decide)

/-- C10: the slot array is indexed with no bounds check: for
`page_index < PAGE_COUNT` both `notice_page_state` and `get_page_state`
return a value (no panic), while for `page_index ≥ PAGE_COUNT` both panic
(modelled as `none`) instead of returning an error. -/
theorem slot_indexing_bounds (c : PageStateCache) (f : Flash) (rangeStart pageIndex : Nat)
    (s : PageState) :
    (pageIndex < c.pages.length →
      (PageStateCache.notice_page_state c pageIndex s).isSome = true ∧
      (c.get_page_state f rangeStart pageIndex).isSome = true) ∧
    (c.pages.length ≤ pageIndex →
      PageStateCache.notice_page_state c pageIndex s = none ∧
      c.get_page_state f rangeStart pageIndex = none) := by
  constructor
  · intro hlt
    constructor
    · unfold PageStateCache.notice_page_state
      rw [if_pos hlt]
      rfl
    · cases hg : c.pages.get? pageIndex with
      | none =>
        have := List.get?_eq_none.mp hg
        omega
      | some slot =>
        cases slot with
        | some t =>
          rw [get_page_state_hit c f rangeStart pageIndex t hg]
          rfl
        | none =>
          obtain ⟨⟨r, tr⟩, ho⟩ : ∃ p, stateQuery_get_page_state f rangeStart pageIndex = p :=
            ⟨_, rfl⟩
          cases r with
          | ok t =>
            rw [get_page_state_miss_ok c f rangeStart pageIndex t tr hg ho]
            rfl
          | error e =>
            rw [get_page_state_miss_error c f rangeStart pageIndex e tr hg ho]
            rfl
  · intro hge
    constructor
    · unfold PageStateCache.notice_page_state
      rw [if_neg (by omega)]
    · exact get_page_state_oob c f rangeStart pageIndex (List.get?_eq_none.mpr hge)

/-- Witness for C10: on a one-page cache, asserting a state for page 1 is an
out-of-bounds access and panics. -/
theorem slot_indexing_bounds_witness :
    PageStateCache.notice_page_state (PageStateCache.new 1) 1 PageState.Open = none :=
  ((slot_indexing_bounds (PageStateCache.new 1) ⟨1, 2, fun _ => 0, fun _ => false⟩ 0 1
    PageState.Open).2 (by decide)).1

end SeqStorage
